import Mathlib

/-!
Verification of the host-import boundary of the WASM smart-contract VM
(`src/vm/imports.ts`).  The host functions are embedded as pure Lean
functions over an explicit guest-instance state.  External collaborators
(the noble crypto libraries, the Node `Buffer` base64url codec, the backend
address codec) are passed in as function parameters, exactly as the source
consumes them through opaque calls.  Code of the repository that is not
part of the provided sources (`memory.ts`, `sections.ts`, the error
classes) is modelled from the specification, as marked on each definition.
-/

namespace WasmVm

/-- A byte buffer (each entry is one byte value). -/
abbrev Bytes := List Nat

/-- Modelled from the spec: a `Region` is a `(pointer, length)` pair
describing a slice of guest linear memory (spec section 3); `memory.ts` is not
among the provided sources. -/
structure Region where
  offset : Nat
  length : Nat
deriving DecidableEq

/-- Modelled from the spec: the error classes of `errors/index.js` (not among
the provided sources), following spec section 7: region bounds faults,
communication faults (zero address from the guest allocator), runtime-level
VM errors (`VmError.runtimeErr`), guest-triggered aborts (`VmError.aborted`),
malformed sections, and uncaught exceptions thrown by the backend codec or
the crypto libraries. -/
inductive VmFault where
  | region : String → VmFault
  | communication : String → VmFault
  | vmRuntime : String → VmFault
  | vmAborted : String → VmFault
  | sections : VmFault
  | codec : String → VmFault
  | crypto : String → VmFault
deriving DecidableEq

/-- The guest instance as seen by the host imports: its linear memory and its
exported `allocate` function. -/
structure Instance where
  memory : Bytes
  allocate : Nat → Nat

def KI : Nat := 1024
def MI : Nat := 1024 * 1024
def MAX_LENGTH_DB_KEY : Nat := 64 * KI
def MAX_LENGTH_DB_VALUE : Nat := 128 * KI
def MAX_LENGTH_CANONICAL_ADDRESS : Nat := 64
def MAX_LENGTH_HUMAN_ADDRESS : Nat := 256
def MAX_LENGTH_QUERY_CHAIN_REQUEST : Nat := 64 * KI
def MAX_LENGTH_ED25519_SIGNATURE : Nat := 64
def MAX_LENGTH_ED25519_MESSAGE : Nat := 128 * 1024
def MAX_COUNT_ED25519_BATCH : Nat := 256
def MAX_LENGTH_DEBUG : Nat := 2 * MI
def MAX_LENGTH_ABORT : Nat := 2 * MI

def EDDSA_PUBKEY_LEN : Nat := 32
def ECDSA_SIGNATURE_LEN : Nat := 64
def ECDSA_UNCOMPRESSED_PUBKEY_LEN : Nat := 65
def ECDSA_PUBKEY_MAX_LEN : Nat := ECDSA_UNCOMPRESSED_PUBKEY_LEN
def MESSAGE_HASH_MAX_LEN : Nat := 32

/-- Modelled from the spec: `readRegion(memory, pointer, maxLength)` copies at
most `maxLength` bytes, failing with a `RegionError` when the region is longer
than the per-call-site ceiling or would read past the end of memory; bounds
violations are never clamped (spec sections 4.1 and 7).  `memory.ts` is not among
the provided sources. -/
def readRegion (memory : Bytes) (region : Region) (maxLength : Nat) :
    Except VmFault Bytes :=
  if maxLength < region.length then
    Except.error (VmFault.region "Region length exceeds limit")
  else if memory.length < region.offset + region.length then
    Except.error (VmFault.region "Region out of bounds")
  else
    Except.ok ((memory.drop region.offset).take region.length)

/-- Modelled from the spec: `writeRegion(memory, pointer, bytes)` copies
`bytes` into guest memory at `pointer`, failing with a `RegionError` when the
write would run past the end of memory (spec section 4.1). -/
def writeRegion (memory : Bytes) (targetPtr : Nat) (data : Bytes) :
    Except VmFault Bytes :=
  if memory.length < targetPtr + data.length then
    Except.error (VmFault.region "Region out of bounds")
  else
    Except.ok (memory.take targetPtr ++ data ++ memory.drop (targetPtr + data.length))

/-- The byte encoding of the ASCII string literals used by the source (for
ASCII text the code points coincide with the UTF-8 bytes). -/
def strBytes (s : String) : Bytes := s.data.map Char.toNat

/-- `writeToContract` from `imports.ts`: asks the guest allocator for
`input.length` bytes, treats a zero address as a communication fault, writes
the bytes at the returned pointer and returns the pointer. -/
def writeToContract (inst : Instance) (input : Bytes) :
    Except VmFault (Instance × Nat) :=
  let targetPtr := inst.allocate input.length
  if targetPtr = 0 then
    Except.error (VmFault.communication "zero address")
  else
    match writeRegion inst.memory targetPtr input with
    | Except.error e => Except.error e
    | Except.ok mem => Except.ok ({ inst with memory := mem }, targetPtr)

/-- `doAddrValidate` from `imports.ts`.  `toStr` stands for Node's
`Buffer.toString("utf8")` and `base64urlDecode` / `base64urlEncode` for
`Buffer.from(s, "base64url")` / `Buffer.toString("base64url")`; all three are
external library calls, passed in as parameters. -/
def doAddrValidate (toStr : Bytes → Bytes)
    (base64urlDecode : Bytes → Bytes) (base64urlEncode : Bytes → Bytes)
    (inst : Instance) (sourceReg : Region) : Except VmFault (Instance × Nat) :=
  match readRegion inst.memory sourceReg MAX_LENGTH_HUMAN_ADDRESS with
  | Except.error e => Except.error e
  | Except.ok sourceData =>
    if sourceData.length = 0 then
      writeToContract inst (strBytes "Input is empty")
    else
      let sourceString := toStr sourceData
      let canonical := base64urlDecode sourceString
      let nomalized := base64urlEncode canonical
      if nomalized ≠ sourceString then
        writeToContract inst (strBytes "Address is not normalized")
      else
        Except.ok (inst, 0)

/-- `doAddrCanonicalize` from `imports.ts`.  `canonicalAddress` is the backend
codec `instance.backend.api.canonicalAddress`; an exception it throws is not
caught by the source, so it propagates out of the call as a fault. -/
def doAddrCanonicalize (toStr : Bytes → Bytes)
    (canonicalAddress : Bytes → Except String Bytes)
    (inst : Instance) (sourceReg : Region) (destinationPtr : Nat) :
    Except VmFault (Instance × Nat) :=
  match readRegion inst.memory sourceReg MAX_LENGTH_HUMAN_ADDRESS with
  | Except.error e => Except.error e
  | Except.ok sourceData =>
    if sourceData.length = 0 then
      writeToContract inst (strBytes "Input is empty")
    else
      match canonicalAddress (toStr sourceData) with
      | Except.error e => Except.error (VmFault.codec e)
      | Except.ok canonical =>
        match writeRegion inst.memory destinationPtr canonical with
        | Except.error e => Except.error e
        | Except.ok mem => Except.ok ({ inst with memory := mem }, 0)

def SECP256K1_VERIFY_CODE_VALID : Nat := 0
def SECP256K1_VERIFY_CODE_INVALID : Nat := 1

/-- `doSecp256k1Verify` from `imports.ts`.  `secpVerify` is the external
`secp.verify(signature, hash, pubkey)` of `@noble/secp256k1`, which returns a
boolean verdict (false, not an exception, on malformed encodings). -/
def doSecp256k1Verify (secpVerify : Bytes → Bytes → Bytes → Bool)
    (inst : Instance) (hashReg signatureReg pubkeyReg : Region) :
    Except VmFault (Instance × Nat) :=
  match readRegion inst.memory hashReg MESSAGE_HASH_MAX_LEN with
  | Except.error e => Except.error e
  | Except.ok hash =>
    match readRegion inst.memory signatureReg ECDSA_SIGNATURE_LEN with
    | Except.error e => Except.error e
    | Except.ok signature =>
      match readRegion inst.memory pubkeyReg ECDSA_PUBKEY_MAX_LEN with
      | Except.error e => Except.error e
      | Except.ok pubkey =>
        Except.ok (inst,
          if secpVerify signature hash pubkey then SECP256K1_VERIFY_CODE_VALID
          else SECP256K1_VERIFY_CODE_INVALID)

/-- Big-endian interpretation of a byte buffer as a natural number, as
produced by `BigInt("0x" + buf.toString("hex"))`. -/
def beNat (l : Bytes) : Nat := l.foldl (fun acc b => acc * 256 + b) 0

/-- `doSecp256k1RecoverPubkey` from `imports.ts`.  `recoverPublicKey r s
recoveryId hash` stands for `new secp.Signature(r, s, recoveryId)
.recoverPublicKey(hash)` plus the hex round-trip, an external noble call whose
thrown errors the source does not catch. -/
def doSecp256k1RecoverPubkey
    (recoverPublicKey : Nat → Nat → Nat → Bytes → Except String Bytes)
    (inst : Instance) (hashReg signatureReg : Region) (recoverParam : Nat) :
    Except VmFault (Instance × Nat) :=
  match readRegion inst.memory hashReg MESSAGE_HASH_MAX_LEN with
  | Except.error e => Except.error e
  | Except.ok hash =>
    match readRegion inst.memory signatureReg ECDSA_SIGNATURE_LEN with
    | Except.error e => Except.error e
    | Except.ok sig =>
      let r := beNat (sig.take 32)
      let s := beNat ((sig.drop 32).take 32)
      match recoverPublicKey r s recoverParam hash with
      | Except.error e => Except.error (VmFault.crypto e)
      | Except.ok pubkey => writeToContract inst pubkey

def ED25519_VERIFY_CODE_VALID : Nat := 0
def ED25519_VERIFY_CODE_INVALID : Nat := 1

/-- `doEd25519Verify` from `imports.ts`.  `edVerify` is the external
`ed.verify(signature, message, pubkey)` of `@noble/ed25519`. -/
def doEd25519Verify (edVerify : Bytes → Bytes → Bytes → Bool)
    (inst : Instance) (messageReg signatureReg pubkeyReg : Region) :
    Except VmFault (Instance × Nat) :=
  match readRegion inst.memory messageReg MAX_LENGTH_ED25519_MESSAGE with
  | Except.error e => Except.error e
  | Except.ok message =>
    match readRegion inst.memory signatureReg MAX_LENGTH_ED25519_SIGNATURE with
    | Except.error e => Except.error e
    | Except.ok signature =>
      match readRegion inst.memory pubkeyReg EDDSA_PUBKEY_LEN with
      | Except.error e => Except.error e
      | Except.ok pubkey =>
        Except.ok (inst,
          if edVerify signature message pubkey then ED25519_VERIFY_CODE_VALID
          else ED25519_VERIFY_CODE_INVALID)

/-- Fuel-indexed worker for `decodeSections`; the fuel is an upper bound on
the number of decoded items (each item consumes at least four bytes), so
starting the fuel at the buffer length makes the exhaustion branch
unreachable. -/
def decodeSectionsGo : Nat → Bytes → Option (List Bytes)
  | _, [] => some []
  | 0, _ :: _ => none
  | fuel + 1, b0 :: b1 :: b2 :: b3 :: rest =>
    if ((b0 * 256 + b1) * 256 + b2) * 256 + b3 ≤ rest.length then
      match decodeSectionsGo fuel
          (rest.drop (((b0 * 256 + b1) * 256 + b2) * 256 + b3)) with
      | some items =>
        some (rest.take (((b0 * 256 + b1) * 256 + b2) * 256 + b3) :: items)
      | none => none
    else none
  | _ + 1, _ => none

/-- Modelled from the spec: `decodeSections` of `sections.ts` (not among the
provided sources) decodes a byte buffer holding N items, each item prefixed by
its 4-byte (big-endian) length, into an ordered sequence of byte buffers
(spec section 6); a truncated buffer is malformed and rejected. -/
def decodeSections (buf : Bytes) : Option (List Bytes) :=
  decodeSectionsGo buf.length buf

/-- The pairwise verification loop of `doEd25519BatchVerify`: returns the
result code together with the list of `(message, signature, publicKey)`
triples on which `ed.verify` was actually called, in order; the loop stops at
the first failing triple. -/
def batchLoop (verify : Bytes → Bytes → Bytes → Bool) :
    List Bytes → List Bytes → List Bytes → Nat × List (Bytes × Bytes × Bytes)
  | m :: ms, s :: ss, k :: ks =>
    if verify s m k then
      let r := batchLoop verify ms ss ks
      (r.1, (m, s, k) :: r.2)
    else
      (ED25519_VERIFY_CODE_INVALID, [(m, s, k)])
  | _, _, _ => (ED25519_VERIFY_CODE_VALID, [])

/-- The tail of `doEd25519BatchVerify` after the broadcast expansion: the
redundant length re-check of lines 200-205 of `imports.ts`, then the loop. -/
def finishBatch (verify : Bytes → Bytes → Bytes → Bool)
    (messages signatures publicKeys : List Bytes) (signaturesLen : Nat) :
    Nat × List (Bytes × Bytes × Bytes) :=
  if messages.length ≠ signaturesLen ∨ messages.length ≠ publicKeys.length then
    (ED25519_VERIFY_CODE_INVALID, [])
  else
    batchLoop verify messages signatures publicKeys

/-- The shape-dispatch and verification part of `doEd25519BatchVerify`
(lines 186-213 of `imports.ts`), operating on the already decoded sequences. -/
def doEd25519BatchVerifyCore (verify : Bytes → Bytes → Bytes → Bool)
    (messages signatures publicKeys : List Bytes) :
    Nat × List (Bytes × Bytes × Bytes) :=
  let messagesLen := messages.length
  let signaturesLen := signatures.length
  let publicKeysLen := publicKeys.length
  if messagesLen = signaturesLen ∧ signaturesLen = publicKeysLen then
    finishBatch verify messages signatures publicKeys signaturesLen
  else if messagesLen = 1 ∧ signaturesLen = publicKeysLen then
    finishBatch verify (List.replicate signaturesLen (messages.headD []))
      signatures publicKeys signaturesLen
  else if publicKeysLen = 1 ∧ messagesLen = signaturesLen then
    finishBatch verify messages signatures
      (List.replicate signaturesLen (publicKeys.headD [])) signaturesLen
  else
    (ED25519_VERIFY_CODE_INVALID, [])

/-- `doEd25519BatchVerify` from `imports.ts`: three bounded region reads, the
sections decoding of each buffer, then the shape dispatch and the pairwise
loop.  The result carries the verification trace of `batchLoop`. -/
def doEd25519BatchVerify (verify : Bytes → Bytes → Bytes → Bool)
    (inst : Instance) (messagesReg signaturesReg publicKeysReg : Region) :
    Except VmFault (Nat × List (Bytes × Bytes × Bytes)) :=
  match readRegion inst.memory messagesReg
      ((MAX_LENGTH_ED25519_MESSAGE + 4) * MAX_COUNT_ED25519_BATCH) with
  | Except.error e => Except.error e
  | Except.ok messagesBuf =>
    match readRegion inst.memory signaturesReg
        ((MAX_LENGTH_ED25519_SIGNATURE + 4) * MAX_COUNT_ED25519_BATCH) with
    | Except.error e => Except.error e
    | Except.ok signaturesBuf =>
      match readRegion inst.memory publicKeysReg
          ((EDDSA_PUBKEY_LEN + 4) * MAX_COUNT_ED25519_BATCH) with
      | Except.error e => Except.error e
      | Except.ok publicKeysBuf =>
        match decodeSections messagesBuf, decodeSections signaturesBuf,
            decodeSections publicKeysBuf with
        | some messages, some signatures, some publicKeys =>
          Except.ok (doEd25519BatchVerifyCore verify messages signatures publicKeys)
        | _, _, _ => Except.error VmFault.sections

/-- `doDbScan` from `imports.ts`: unconditionally raises the
unsupported-capability runtime error; no other statement precedes the throw. -/
def doDbScan (_inst : Instance) (_startReg _endReg : Region) (_order : Nat) :
    Except VmFault (Instance × Nat) :=
  Except.error (VmFault.vmRuntime "Unsupported function")

/-- `doDbNext` from `imports.ts`: unconditionally raises the
unsupported-capability runtime error; no other statement precedes the throw. -/
def doDbNext (_inst : Instance) (_iteratorId : Nat) :
    Except VmFault (Instance × Nat) :=
  Except.error (VmFault.vmRuntime "Unsupported function")

/-- The three accepted batch shapes of spec section 4.4. -/
def batchShapeAccepted (M S K : List Bytes) : Prop :=
  (M.length = S.length ∧ S.length = K.length) ∨
  (M.length = 1 ∧ S.length = K.length) ∨
  (K.length = 1 ∧ M.length = S.length)

/-- The message sequence after the broadcast expansion, mirroring the
if-chain of `doEd25519BatchVerifyCore`. -/
def expandedMessages (M S K : List Bytes) : List Bytes :=
  if M.length = S.length ∧ S.length = K.length then M
  else if M.length = 1 ∧ S.length = K.length then
    List.replicate S.length (M.headD [])
  else M

/-- The public-key sequence after the broadcast expansion, mirroring the
if-chain of `doEd25519BatchVerifyCore`. -/
def expandedKeys (M S K : List Bytes) : List Bytes :=
  if M.length = S.length ∧ S.length = K.length then K
  else if M.length = 1 ∧ S.length = K.length then K
  else if K.length = 1 ∧ M.length = S.length then
    List.replicate S.length (K.headD [])
  else K

/-- The expanded `(message, signature, publicKey)` triples a shape-accepted
batch asks `ed.verify` about. -/
def expandedTriples (M S K : List Bytes) : List (Bytes × Bytes × Bytes) :=
  List.zip (expandedMessages M S K) (List.zip S (expandedKeys M S K))


/-! ## Helper lemmas -/

lemma batchLoop_nil_fst (verify : Bytes → Bytes → Bytes → Bool)
    (S K : List Bytes) : batchLoop verify [] S K = (0, []) := rfl

lemma batchLoop_nil_snd (verify : Bytes → Bytes → Bytes → Bool)
    (m : Bytes) (ms K : List Bytes) :
    batchLoop verify (m :: ms) [] K = (0, []) := rfl

lemma batchLoop_nil_trd (verify : Bytes → Bytes → Bytes → Bool)
    (m s : Bytes) (ms ss : List Bytes) :
    batchLoop verify (m :: ms) (s :: ss) [] = (0, []) := rfl

lemma batchLoop_cons (verify : Bytes → Bytes → Bytes → Bool)
    (m s k : Bytes) (ms ss ks : List Bytes) :
    batchLoop verify (m :: ms) (s :: ss) (k :: ks) =
      if verify s m k then
        ((batchLoop verify ms ss ks).1,
          (m, s, k) :: (batchLoop verify ms ss ks).2)
      else (1, [(m, s, k)]) := rfl

/-- The redundant post-expansion length re-check of `imports.ts` never fires:
the dispatch of `doEd25519BatchVerifyCore` is exactly the four-way shape rule
of the spec. -/
lemma core_eq_dispatch (verify : Bytes → Bytes → Bytes → Bool)
    (M S K : List Bytes) :
    doEd25519BatchVerifyCore verify M S K =
      if M.length = S.length ∧ S.length = K.length then
        batchLoop verify M S K
      else if M.length = 1 ∧ S.length = K.length then
        batchLoop verify (List.replicate S.length (M.headD [])) S K
      else if K.length = 1 ∧ M.length = S.length then
        batchLoop verify M S (List.replicate S.length (K.headD []))
      else
        (ED25519_VERIFY_CODE_INVALID, []) := by
  simp only [doEd25519BatchVerifyCore, finishBatch]
  by_cases h1 : M.length = S.length ∧ S.length = K.length
  · rw [if_pos h1, if_pos h1, if_neg (by omega)]
  · rw [if_neg h1, if_neg h1]
    by_cases h2 : M.length = 1 ∧ S.length = K.length
    · rw [if_pos h2, if_pos h2,
        if_neg (by simp only [List.length_replicate]; omega)]
    · rw [if_neg h2, if_neg h2]
      by_cases h3 : K.length = 1 ∧ M.length = S.length
      · rw [if_pos h3, if_pos h3,
          if_neg (by simp only [List.length_replicate]; omega)]
      · rw [if_neg h3, if_neg h3]

/-- On an accepted shape, the core equals the loop over the broadcast-expanded
sequences. -/
lemma core_eq_batchLoop_of_accepted (verify : Bytes → Bytes → Bytes → Bool)
    (M S K : List Bytes) (h : batchShapeAccepted M S K) :
    doEd25519BatchVerifyCore verify M S K =
      batchLoop verify (expandedMessages M S K) S (expandedKeys M S K) := by
  rw [core_eq_dispatch]
  simp only [expandedMessages, expandedKeys]
  by_cases h1 : M.length = S.length ∧ S.length = K.length
  · rw [if_pos h1, if_pos h1, if_pos h1]
  · rw [if_neg h1, if_neg h1, if_neg h1]
    by_cases h2 : M.length = 1 ∧ S.length = K.length
    · rw [if_pos h2, if_pos h2, if_pos h2]
    · rw [if_neg h2, if_neg h2, if_neg h2]
      by_cases h3 : K.length = 1 ∧ M.length = S.length
      · rw [if_pos h3, if_pos h3]
      · rcases h with h | h | h
        · exact absurd h h1
        · exact absurd h h2
        · exact absurd h h3

lemma expanded_lengths (M S K : List Bytes) (h : batchShapeAccepted M S K) :
    (expandedMessages M S K).length = S.length ∧
    (expandedKeys M S K).length = S.length := by
  simp only [expandedMessages, expandedKeys]
  by_cases h1 : M.length = S.length ∧ S.length = K.length
  · rw [if_pos h1, if_pos h1]
    omega
  · rw [if_neg h1, if_neg h1]
    by_cases h2 : M.length = 1 ∧ S.length = K.length
    · rw [if_pos h2, if_pos h2]
      constructor
      · simp
      · omega
    · rw [if_neg h2, if_neg h2]
      by_cases h3 : K.length = 1 ∧ M.length = S.length
      · rw [if_pos h3]
        constructor
        · omega
        · simp
      · rcases h with h | h | h
        · exact absurd h h1
        · exact absurd h h2
        · exact absurd h h3

lemma batchLoop_fst_eq_zero_iff (verify : Bytes → Bytes → Bytes → Bool) :
    ∀ M S K : List Bytes,
      ((batchLoop verify M S K).1 = 0 ↔
        ∀ t ∈ List.zip M (List.zip S K), verify t.2.1 t.1 t.2.2 = true)
  | [], _, _ => by
    rw [batchLoop_nil_fst]
    simp
  | _ :: _, [], _ => by
    rw [batchLoop_nil_snd]
    simp
  | _ :: _, _ :: _, [] => by
    rw [batchLoop_nil_trd]
    simp
  | m :: ms, s :: ss, k :: ks => by
    rw [batchLoop_cons]
    by_cases hv : verify s m k
    · rw [if_pos hv]
      show (batchLoop verify ms ss ks).1 = 0 ↔ _
      rw [batchLoop_fst_eq_zero_iff verify ms ss ks]
      simp only [List.zip_cons_cons, List.mem_cons]
      constructor
      · rintro h t (rfl | ht)
        · exact hv
        · exact h t ht
      · intro h t ht
        exact h t (Or.inr ht)
    · rw [if_neg hv]
      show (1 : Nat) = 0 ↔ _
      constructor
      · intro h
        exact absurd h one_ne_zero
      · intro h
        have := h (m, s, k) (by simp [List.zip_cons_cons])
        exact absurd this (by simp [hv])

lemma batchLoop_fst_ne_zero (verify : Bytes → Bytes → Bytes → Bool) :
    ∀ M S K : List Bytes, (batchLoop verify M S K).1 ≠ 0 →
      (batchLoop verify M S K).1 = 1 ∧
      ∃ pre t post, List.zip M (List.zip S K) = pre ++ t :: post ∧
        (∀ u ∈ pre, verify u.2.1 u.1 u.2.2 = true) ∧
        verify t.2.1 t.1 t.2.2 = false ∧
        (batchLoop verify M S K).2 = pre ++ [t]
  | [], S, K => by
    rw [batchLoop_nil_fst]
    intro h
    exact absurd rfl h
  | _ :: _, [], _ => by
    rw [batchLoop_nil_snd]
    intro h
    exact absurd rfl h
  | _ :: _, _ :: _, [] => by
    rw [batchLoop_nil_trd]
    intro h
    exact absurd rfl h
  | m :: ms, s :: ss, k :: ks => by
    rw [batchLoop_cons]
    by_cases hv : verify s m k
    · rw [if_pos hv]
      intro hne
      have hne' : (batchLoop verify ms ss ks).1 ≠ 0 := hne
      rcases batchLoop_fst_ne_zero verify ms ss ks hne' with
        ⟨hcode, pre, t, post, hzip, hpre, ht, htrace⟩
      refine ⟨hcode, (m, s, k) :: pre, t, post, ?_, ?_, ht, ?_⟩
      · simp only [List.zip_cons_cons, hzip]
        rfl
      · intro u hu
        rcases List.mem_cons.mp hu with rfl | hu
        · exact hv
        · exact hpre u hu
      · show (m, s, k) :: (batchLoop verify ms ss ks).2 = _
        rw [htrace]
        rfl
    · rw [if_neg hv]
      intro _
      refine ⟨rfl, [], (m, s, k), List.zip ms (List.zip ss ks), ?_, ?_, ?_, rfl⟩
      · rw [List.zip_cons_cons]
        rfl
      · intro u hu
        exact absurd hu (List.not_mem_nil u)
      · simpa using hv

lemma readRegion_ok_length {memory : Bytes} {region : Region} {maxLength : Nat}
    {buf : Bytes} (h : readRegion memory region maxLength = Except.ok buf) :
    buf.length ≤ maxLength := by
  unfold readRegion at h
  by_cases h1 : maxLength < region.length
  · simp [h1] at h
  · by_cases h2 : memory.length < region.offset + region.length
    · simp [h1, h2] at h
    · simp only [h1, if_false, h2, Except.ok.injEq] at h
      subst h
      simp only [List.length_take, List.length_drop]
      omega

lemma decodeSectionsGo_cons4 (fuel b0 b1 b2 b3 : Nat) (rest : Bytes) :
    decodeSectionsGo (fuel + 1) (b0 :: b1 :: b2 :: b3 :: rest) =
      if ((b0 * 256 + b1) * 256 + b2) * 256 + b3 ≤ rest.length then
        match decodeSectionsGo fuel
            (rest.drop (((b0 * 256 + b1) * 256 + b2) * 256 + b3)) with
        | some items =>
          some (rest.take (((b0 * 256 + b1) * 256 + b2) * 256 + b3) :: items)
        | none => none
      else none := rfl

lemma decodeSectionsGo_bounds :
    ∀ (fuel : Nat) (buf : Bytes) (items : List Bytes),
      decodeSectionsGo fuel buf = some items →
      items.length * 4 ≤ buf.length ∧ ∀ x ∈ items, x.length + 4 ≤ buf.length
  | 0, [], items => by
    intro h
    have : (some [] : Option (List Bytes)) = some items := h
    simp only [Option.some.injEq] at this
    subst this
    simp
  | fuel + 1, [], items => by
    intro h
    have : (some [] : Option (List Bytes)) = some items := h
    simp only [Option.some.injEq] at this
    subst this
    simp
  | 0, b :: bs, items => by
    intro h
    exact Option.noConfusion h
  | fuel + 1, b0 :: b1 :: b2 :: b3 :: rest, items => by
    intro h
    rw [decodeSectionsGo_cons4] at h
    by_cases hle : ((b0 * 256 + b1) * 256 + b2) * 256 + b3 ≤ rest.length
    · rw [if_pos hle] at h
      rcases hrec : decodeSectionsGo fuel
          (rest.drop (((b0 * 256 + b1) * 256 + b2) * 256 + b3)) with _ | items'
      · rw [hrec] at h
        exact Option.noConfusion h
      · rw [hrec] at h
        simp only [Option.some.injEq] at h
        subst h
        rcases decodeSectionsGo_bounds fuel _ items' hrec with ⟨ihlen, ihitems⟩
        rw [List.length_drop] at ihlen
        constructor
        · simp only [List.length_cons]
          omega
        · intro x hx
          rcases List.mem_cons.mp hx with rfl | hx
          · simp only [List.length_take, List.length_cons]
            omega
          · have := ihitems x hx
            rw [List.length_drop] at this
            simp only [List.length_cons]
            omega
    · rw [if_neg hle] at h
      exact Option.noConfusion h
  | fuel + 1, [b0], items => by
    intro h
    exact Option.noConfusion h
  | fuel + 1, [b0, b1], items => by
    intro h
    exact Option.noConfusion h
  | fuel + 1, [b0, b1, b2], items => by
    intro h
    exact Option.noConfusion h

lemma take_drop_append_middle (l₁ l₂ l₃ : Bytes) :
    ((l₁ ++ (l₂ ++ l₃)).drop l₁.length).take l₂.length = l₂ := by
  rw [List.drop_left, List.take_left]

lemma writeToContract_ok {inst : Instance} {input : Bytes} {i : Instance}
    {p : Nat} (h : writeToContract inst input = Except.ok (i, p)) :
    p ≠ 0 ∧ (i.memory.drop p).take input.length = input := by
  unfold writeToContract at h
  by_cases hz : inst.allocate input.length = 0
  · simp [hz] at h
  · simp only [hz, if_false] at h
    unfold writeRegion at h
    by_cases hb : inst.memory.length < inst.allocate input.length + input.length
    · simp [hb] at h
    · simp only [hb, if_false, Except.ok.injEq, Prod.mk.injEq] at h
      rcases h with ⟨hi, hp⟩
      constructor
      · omega
      · rw [← hi]
        simp only [hp]
        have hlen : (inst.memory.take p).length = p := by
          simp only [List.length_take]
          omega
        have hmid := take_drop_append_middle (inst.memory.take p) input
          (inst.memory.drop (p + input.length))
        rw [hlen] at hmid
        rw [List.append_assoc]
        exact hmid

/-! ## Claim theorems -/

/-- Claim C1: after decoding the three regions into sequences `M`, `S`, `K`,
`ed25519_batch_verify` dispatches exactly by the three shape rules — equal
lengths are verified pairwise; a single message is broadcast over every
(signature, key) pair; a single public key is broadcast over every
(message, signature) pair — and every other length combination returns
INVALID (1) without performing any verification (the second component of the
result is the list of triples actually passed to `ed.verify`, and it is empty
in the rejecting branch). -/
theorem ed25519_batch_verify_shape_rules (verify : Bytes → Bytes → Bytes → Bool)
    (M S K : List Bytes) :
    doEd25519BatchVerifyCore verify M S K =
      if M.length = S.length ∧ S.length = K.length then
        batchLoop verify M S K
      else if M.length = 1 ∧ S.length = K.length then
        batchLoop verify (List.replicate S.length (M.headD [])) S K
      else if K.length = 1 ∧ M.length = S.length then
        batchLoop verify M S (List.replicate S.length (K.headD []))
      else
        (1, []) :=
  core_eq_dispatch verify M S K

/-- Claim C2: for every batch accepted by one of the three shape rules, the
result is VALID (0) iff every expanded `(message, signature, publicKey)`
triple passes `ed.verify`; otherwise the result is INVALID (1), the failing
triple is the first failing one, and the verification trace stops at it
(no later pair is verified), so no partial or quorum success is ever
accepted. -/
theorem ed25519_batch_verify_pairwise_all (verify : Bytes → Bytes → Bytes → Bool)
    (M S K : List Bytes) (h : batchShapeAccepted M S K) :
    ((doEd25519BatchVerifyCore verify M S K).1 = 0 ↔
      ∀ t ∈ expandedTriples M S K, verify t.2.1 t.1 t.2.2 = true) ∧
    ((doEd25519BatchVerifyCore verify M S K).1 ≠ 0 →
      (doEd25519BatchVerifyCore verify M S K).1 = 1 ∧
      ∃ pre t post, expandedTriples M S K = pre ++ t :: post ∧
        (∀ u ∈ pre, verify u.2.1 u.1 u.2.2 = true) ∧
        verify t.2.1 t.1 t.2.2 = false ∧
        (doEd25519BatchVerifyCore verify M S K).2 = pre ++ [t]) := by
  rw [core_eq_batchLoop_of_accepted verify M S K h]
  unfold expandedTriples
  exact ⟨batchLoop_fst_eq_zero_iff verify _ _ _,
    batchLoop_fst_ne_zero verify _ _ _⟩

/-- Witness for C2 at a concrete accepted batch: a one-element equal-length
batch whose only pair verifies is VALID. -/
theorem ed25519_batch_verify_pairwise_all_witness :
    (doEd25519BatchVerifyCore (fun _ _ _ => true) [[1]] [[2]] [[3]]).1 = 0 :=
  (ed25519_batch_verify_pairwise_all (fun _ _ _ => true) [[1]] [[2]] [[3]]
    (Or.inl (by decide))).1.mpr (by decide)

/-- Claim C10: when all three regions decode to empty sequences, the batch is
accepted by the equal-length rule vacuously and the function returns VALID (0)
with an empty verification trace. -/
theorem ed25519_batch_verify_empty_batch_valid
    (verify : Bytes → Bytes → Bytes → Bool) (inst : Instance)
    (mR sR kR : Region) (mb sb kb : Bytes)
    (h1 : readRegion inst.memory mR
      ((MAX_LENGTH_ED25519_MESSAGE + 4) * MAX_COUNT_ED25519_BATCH) = Except.ok mb)
    (h2 : readRegion inst.memory sR
      ((MAX_LENGTH_ED25519_SIGNATURE + 4) * MAX_COUNT_ED25519_BATCH) = Except.ok sb)
    (h3 : readRegion inst.memory kR
      ((EDDSA_PUBKEY_LEN + 4) * MAX_COUNT_ED25519_BATCH) = Except.ok kb)
    (d1 : decodeSections mb = some []) (d2 : decodeSections sb = some [])
    (d3 : decodeSections kb = some []) :
    doEd25519BatchVerify verify inst mR sR kR = Except.ok (0, []) := by
  unfold doEd25519BatchVerify
  rw [h1, h2, h3]
  simp only [d1, d2, d3]
  rfl

/-- Witness for C10: three empty regions over an empty memory decode to empty
sequences and the batch is VALID. -/
theorem ed25519_batch_verify_empty_batch_valid_witness :
    doEd25519BatchVerify (fun _ _ _ => true) ⟨[], fun _ => 0⟩ ⟨0, 0⟩ ⟨0, 0⟩ ⟨0, 0⟩ =
      Except.ok (0, []) :=
  ed25519_batch_verify_empty_batch_valid (fun _ _ _ => true) ⟨[], fun _ => 0⟩
    ⟨0, 0⟩ ⟨0, 0⟩ ⟨0, 0⟩ [] [] [] rfl rfl rfl rfl rfl rfl


/-- Claim C3: `addr_validate` returns the "Input is empty" error through the
guest allocator when the read input is empty; when the canonical round-trip
of the (non-empty) input is not the identity it returns the "Address is not
normalized" error; and on a normalized non-empty input it returns `0`.  The
last conjunct shows that a successful `writeToContract` hands back a non-zero
pointer with the UTF-8 error string written at it. -/
theorem addr_validate_spec (toStr base64urlDecode base64urlEncode : Bytes → Bytes)
    (inst : Instance) (sourceReg : Region) (b : Bytes)
    (hread : readRegion inst.memory sourceReg MAX_LENGTH_HUMAN_ADDRESS =
      Except.ok b) :
    (b.length = 0 →
      doAddrValidate toStr base64urlDecode base64urlEncode inst sourceReg =
        writeToContract inst (strBytes "Input is empty")) ∧
    (b.length ≠ 0 → base64urlEncode (base64urlDecode (toStr b)) ≠ toStr b →
      doAddrValidate toStr base64urlDecode base64urlEncode inst sourceReg =
        writeToContract inst (strBytes "Address is not normalized")) ∧
    (b.length ≠ 0 → base64urlEncode (base64urlDecode (toStr b)) = toStr b →
      doAddrValidate toStr base64urlDecode base64urlEncode inst sourceReg =
        Except.ok (inst, 0)) ∧
    (∀ msg i p, writeToContract inst msg = Except.ok (i, p) →
      p ≠ 0 ∧ (i.memory.drop p).take msg.length = msg) := by
  have hfn : doAddrValidate toStr base64urlDecode base64urlEncode inst sourceReg =
      if b.length = 0 then writeToContract inst (strBytes "Input is empty")
      else if base64urlEncode (base64urlDecode (toStr b)) ≠ toStr b then
        writeToContract inst (strBytes "Address is not normalized")
      else Except.ok (inst, 0) := by
    unfold doAddrValidate
    rw [hread]
  refine ⟨?_, ?_, ?_, ?_⟩
  · intro hb
    rw [hfn, if_pos hb]
  · intro hb hne
    rw [hfn, if_neg hb, if_pos hne]
  · intro hb heq
    rw [hfn, if_neg hb, if_neg (fun hcon => hcon heq)]
  · intro msg i p h
    exact writeToContract_ok h

/-- Witness for C3: a normalized non-empty input (all codecs the identity)
validates to `0`. -/
theorem addr_validate_spec_witness :
    doAddrValidate id id id ⟨List.replicate 64 0, fun _ => 5⟩ ⟨0, 3⟩ =
      Except.ok (⟨List.replicate 64 0, fun _ => 5⟩, 0) :=
  (addr_validate_spec id id id ⟨List.replicate 64 0, fun _ => 5⟩ ⟨0, 3⟩
    (List.replicate 3 0) rfl).2.2.1 (by decide) rfl

set_option maxRecDepth 10000 in
/-- Counterexample to claim C4: a crafted batch of 257 zero-length items per
region (1028 bytes each, all zeros) passes every region-read ceiling, decodes
to sequences of 257 items, is accepted by the equal-length rule, and is
verified pairwise on all 257 triples — so the decoded sequences passed to
verification can exceed 256 items; the ceilings bound only the aggregate
buffer sizes. -/
theorem ed25519_batch_verify_ceiling_counterexample :
    decodeSections (List.replicate 1028 0) = some (List.replicate 257 []) ∧
    1028 ≤ (MAX_LENGTH_ED25519_MESSAGE + 4) * MAX_COUNT_ED25519_BATCH ∧
    1028 ≤ (MAX_LENGTH_ED25519_SIGNATURE + 4) * MAX_COUNT_ED25519_BATCH ∧
    1028 ≤ (EDDSA_PUBKEY_LEN + 4) * MAX_COUNT_ED25519_BATCH ∧
    doEd25519BatchVerify (fun _ _ _ => true) ⟨List.replicate 1028 0, fun _ => 0⟩
      ⟨0, 1028⟩ ⟨0, 1028⟩ ⟨0, 1028⟩ =
      Except.ok (0, List.replicate 257 ([], [], [])) ∧
    256 < (List.replicate 257 ([] : Bytes)).length :=
  ⟨by rfl, by decide, by decide, by decide, by rfl, by decide⟩

/-- Claim C4 (amended): the length ceilings are enforced as aggregate upper
bounds on the three region reads before section decoding — each read fails
unless the region holds at most `(itemCeiling + 4) * 256` bytes — which bounds
every decoded sequence by `bufferLength / 4` items and every decoded item by
the buffer length; the 256-item count and the per-item sizes are not
individually enforced on the decoded sequences. -/
theorem ed25519_batch_verify_aggregate_bounds
    (mem : Bytes) (r : Region) (ceiling : Nat) (buf : Bytes)
    (items : List Bytes)
    (hread : readRegion mem r ceiling = Except.ok buf)
    (hdec : decodeSections buf = some items) :
    buf.length ≤ ceiling ∧ items.length * 4 ≤ buf.length ∧
    ∀ x ∈ items, x.length + 4 ≤ buf.length := by
  refine ⟨readRegion_ok_length hread, ?_, ?_⟩
  · exact (decodeSectionsGo_bounds buf.length buf items hdec).1
  · exact (decodeSectionsGo_bounds buf.length buf items hdec).2

/-- Witness for the amended C4 at a concrete read and decode. -/
theorem ed25519_batch_verify_aggregate_bounds_witness :
    ([0, 0, 0, 1, 7] : Bytes).length ≤ 10 ∧
    ([[7]] : List Bytes).length * 4 ≤ ([0, 0, 0, 1, 7] : Bytes).length :=
  ⟨(ed25519_batch_verify_aggregate_bounds [0, 0, 0, 1, 7] ⟨0, 5⟩ 10
      [0, 0, 0, 1, 7] [[7]] rfl rfl).1,
    (ed25519_batch_verify_aggregate_bounds [0, 0, 0, 1, 7] ⟨0, 5⟩ 10
      [0, 0, 0, 1, 7] [[7]] rfl rfl).2.1⟩

/-- Claim C5: with in-bounds regions, `secp256k1_verify` never raises a
fault: it returns the in-band code, and whenever the library treats the
(possibly malformed) key as failing it returns INVALID (1). -/
theorem secp256k1_verify_no_exception (secpVerify : Bytes → Bytes → Bytes → Bool)
    (inst : Instance) (hashReg signatureReg pubkeyReg : Region)
    (hash signature pubkey : Bytes)
    (hh : readRegion inst.memory hashReg MESSAGE_HASH_MAX_LEN = Except.ok hash)
    (hs : readRegion inst.memory signatureReg ECDSA_SIGNATURE_LEN =
      Except.ok signature)
    (hp : readRegion inst.memory pubkeyReg ECDSA_PUBKEY_MAX_LEN =
      Except.ok pubkey) :
    (∀ e, doSecp256k1Verify secpVerify inst hashReg signatureReg pubkeyReg ≠
      Except.error e) ∧
    (secpVerify signature hash pubkey = false →
      doSecp256k1Verify secpVerify inst hashReg signatureReg pubkeyReg =
        Except.ok (inst, SECP256K1_VERIFY_CODE_INVALID)) := by
  have hfn : doSecp256k1Verify secpVerify inst hashReg signatureReg pubkeyReg =
      Except.ok (inst,
        if secpVerify signature hash pubkey then SECP256K1_VERIFY_CODE_VALID
        else SECP256K1_VERIFY_CODE_INVALID) := by
    unfold doSecp256k1Verify
    rw [hh, hs, hp]
  constructor
  · intro e hcon
    rw [hfn] at hcon
    exact Except.noConfusion hcon
  · intro hfalse
    rw [hfn, hfalse]
    rfl

/-- Witness for C5: a library verdict of false on concrete in-bounds regions
returns INVALID, not a fault. -/
theorem secp256k1_verify_no_exception_witness :
    doSecp256k1Verify (fun _ _ _ => false) ⟨[1, 2, 3], fun _ => 0⟩
      ⟨0, 1⟩ ⟨1, 1⟩ ⟨2, 1⟩ =
      Except.ok (⟨[1, 2, 3], fun _ => 0⟩, SECP256K1_VERIFY_CODE_INVALID) :=
  (secp256k1_verify_no_exception (fun _ _ _ => false) ⟨[1, 2, 3], fun _ => 0⟩
    ⟨0, 1⟩ ⟨1, 1⟩ ⟨2, 1⟩ [1] [2] [3] rfl rfl rfl).2 rfl

/-- Claim C6 (evaluation of the failing input): when the backend codec fails
on the non-empty input `[97]` ("a"), `addr_canonicalize` propagates the codec
exception out of the call as a fault instead of returning a pointer to an
allocated error message — the source has no catch around the
`canonicalAddress` call. -/
theorem addr_canonicalize_codec_failure_faults :
    doAddrCanonicalize id (fun _ => Except.error "codec failure")
      ⟨[97], fun _ => 0⟩ ⟨0, 1⟩ 0 =
      Except.error (VmFault.codec "codec failure") := rfl

/-- Claim C7: when public-key recovery fails on a 64-byte signature, the
failure surfaces as the crypto-library error propagated unchanged — never as
one of the host-fault classes this module itself raises (communication,
runtime, region). -/
theorem secp256k1_recover_pubkey_crypto_error
    (recoverPublicKey : Nat → Nat → Nat → Bytes → Except String Bytes)
    (inst : Instance) (hashReg signatureReg : Region) (recoverParam : Nat)
    (hash sig : Bytes) (e : String)
    (hh : readRegion inst.memory hashReg MESSAGE_HASH_MAX_LEN = Except.ok hash)
    (hs : readRegion inst.memory signatureReg ECDSA_SIGNATURE_LEN = Except.ok sig)
    (_hlen : sig.length = 64)
    (hfail : recoverPublicKey (beNat (sig.take 32)) (beNat ((sig.drop 32).take 32))
      recoverParam hash = Except.error e) :
    doSecp256k1RecoverPubkey recoverPublicKey inst hashReg signatureReg
      recoverParam = Except.error (VmFault.crypto e) ∧
    (∀ s, doSecp256k1RecoverPubkey recoverPublicKey inst hashReg signatureReg
      recoverParam ≠ Except.error (VmFault.communication s)) ∧
    (∀ s, doSecp256k1RecoverPubkey recoverPublicKey inst hashReg signatureReg
      recoverParam ≠ Except.error (VmFault.vmRuntime s)) ∧
    (∀ s, doSecp256k1RecoverPubkey recoverPublicKey inst hashReg signatureReg
      recoverParam ≠ Except.error (VmFault.region s)) := by
  have hfn : doSecp256k1RecoverPubkey recoverPublicKey inst hashReg signatureReg
      recoverParam = Except.error (VmFault.crypto e) := by
    unfold doSecp256k1RecoverPubkey
    rw [hh, hs]
    simp only [hfail]
  refine ⟨hfn, ?_, ?_, ?_⟩
  · intro s hcon
    rw [hfn] at hcon
    simp at hcon
  · intro s hcon
    rw [hfn] at hcon
    simp at hcon
  · intro s hcon
    rw [hfn] at hcon
    simp at hcon

/-- Witness for C7: a recovery that fails with "bad recovery id" on concrete
in-bounds regions propagates exactly that crypto error. -/
theorem secp256k1_recover_pubkey_crypto_error_witness :
    doSecp256k1RecoverPubkey (fun _ _ _ _ => Except.error "bad recovery id")
      ⟨List.replicate 96 0, fun _ => 0⟩ ⟨0, 32⟩ ⟨32, 64⟩ 0 =
      Except.error (VmFault.crypto "bad recovery id") :=
  (secp256k1_recover_pubkey_crypto_error
    (fun _ _ _ _ => Except.error "bad recovery id")
    ⟨List.replicate 96 0, fun _ => 0⟩ ⟨0, 32⟩ ⟨32, 64⟩ 0
    (List.replicate 32 0) (List.replicate 64 0) "bad recovery id"
    rfl rfl (by decide) rfl).1

/-- Claim C8: `secp256k1_verify` and `ed25519_verify` are deterministic pure
functions — the verdict is a function of the read byte triples alone (so two
calls reading identical bytes return identical verdicts), and each call hands
the instance back unchanged, performing no write or other state change. -/
theorem crypto_verify_deterministic_pure
    (secpVerify edVerify : Bytes → Bytes → Bytes → Bool) (inst : Instance)
    (hashReg sigReg pkReg msgReg esigReg epkReg : Region)
    (hash sig pk msg esig epk : Bytes)
    (h1 : readRegion inst.memory hashReg MESSAGE_HASH_MAX_LEN = Except.ok hash)
    (h2 : readRegion inst.memory sigReg ECDSA_SIGNATURE_LEN = Except.ok sig)
    (h3 : readRegion inst.memory pkReg ECDSA_PUBKEY_MAX_LEN = Except.ok pk)
    (h4 : readRegion inst.memory msgReg MAX_LENGTH_ED25519_MESSAGE = Except.ok msg)
    (h5 : readRegion inst.memory esigReg MAX_LENGTH_ED25519_SIGNATURE =
      Except.ok esig)
    (h6 : readRegion inst.memory epkReg EDDSA_PUBKEY_LEN = Except.ok epk) :
    doSecp256k1Verify secpVerify inst hashReg sigReg pkReg =
      Except.ok (inst, if secpVerify sig hash pk then 0 else 1) ∧
    doEd25519Verify edVerify inst msgReg esigReg epkReg =
      Except.ok (inst, if edVerify esig msg epk then 0 else 1) := by
  constructor
  · unfold doSecp256k1Verify
    rw [h1, h2, h3]
    rfl
  · unfold doEd25519Verify
    rw [h4, h5, h6]
    rfl

/-- Witness for C8 at concrete instances, regions and library verdicts. -/
theorem crypto_verify_deterministic_pure_witness :
    doSecp256k1Verify (fun _ _ _ => true) ⟨[1, 2, 3], fun _ => 0⟩
      ⟨0, 1⟩ ⟨1, 1⟩ ⟨2, 1⟩ =
      Except.ok (⟨[1, 2, 3], fun _ => 0⟩, if true then 0 else 1) ∧
    doEd25519Verify (fun _ _ _ => false) ⟨[1, 2, 3], fun _ => 0⟩
      ⟨0, 2⟩ ⟨2, 1⟩ ⟨0, 1⟩ =
      Except.ok (⟨[1, 2, 3], fun _ => 0⟩, if false then 0 else 1) :=
  crypto_verify_deterministic_pure (fun _ _ _ => true) (fun _ _ _ => false)
    ⟨[1, 2, 3], fun _ => 0⟩ ⟨0, 1⟩ ⟨1, 1⟩ ⟨2, 1⟩ ⟨0, 2⟩ ⟨2, 1⟩ ⟨0, 1⟩
    [1] [2] [3] [1, 2] [3] [1] rfl rfl rfl rfl rfl rfl

/-- Claim C9: `db_scan` and `db_next`, for every argument, immediately return
the unsupported-capability runtime fault; their bodies are the bare throw, so
no read, write or other effect happens before failing. -/
theorem db_scan_db_next_unsupported :
    ∀ (inst : Instance) (startReg endReg : Region) (order iteratorId : Nat),
      doDbScan inst startReg endReg order =
        Except.error (VmFault.vmRuntime "Unsupported function") ∧
      doDbNext inst iteratorId =
        Except.error (VmFault.vmRuntime "Unsupported function") :=
  fun _ _ _ _ _ => ⟨rfl, rfl⟩


end WasmVm
